import Mathlib

/-!
# A shallow embedding of terradozer's core

This development embeds, in Lean 4, the parts of the terradozer code base
(state enumeration, provider adapter, resource engine, destruction
scheduler) that the verified properties below speak about, and proves or
refutes each property against the embedding.

Conventions of the embedding:
* `cty.Value` trees are modelled by the inductive `CtyValue`
  (null / bool / string / object-of-fields); objects carry their fields as
  an association list, which models Go's `map[string]cty.Value` up to key
  order.
* Go errors are modelled by `Option String` (`none` = nil error) or by
  `Except String` for fallible functions returning a payload.
* The concurrent worker pools of `DestroyResources` / `UpdateResources`
  are modelled by their sequential denotation: each worker handles one
  resource independently and produces exactly one result, so for any
  worker count `parallel ≥ 1` the multiset of results is that of the
  per-resource result function mapped over the input list.
* Wall-clock retry budgets are modelled by fuel: the number of further
  attempts the budget still allows.
-/

/-! ## cty values (github.com/zclconf/go-cty, the fragment used by the code) -/

/-- The fragment of cty types the embedding needs. -/
inductive CtyType where
  | bool
  | string
  | number
  | dynamicPseudo
  deriving DecidableEq

/-- The fragment of cty values the embedding needs: `NullVal`, `BoolVal`,
`StringVal` and `ObjectVal` over an association list of fields. -/
inductive CtyValue where
  | nullVal (ty : CtyType)
  | boolVal (b : Bool)
  | stringVal (s : String)
  | objectVal (fields : List (String × CtyValue))

/-- `Value.IsNull`. -/
def CtyValue.isNull : CtyValue → Bool
  | .nullVal _ => true
  | _ => false

/-- `Value.CanIterateElements`: of the modelled constructors, only objects
can be iterated. -/
def CtyValue.canIterateElements : CtyValue → Bool
  | .objectVal _ => true
  | _ => false

/-- `Value.AsValueMap` on the modelled fragment (guarded by
`CanIterateElements` at every use site). -/
def CtyValue.asValueMap : CtyValue → List (String × CtyValue)
  | .objectVal fields => fields
  | _ => []

/-- `v.Type().Equals(cty.Bool)`: holds for bool values and for nulls of
bool type. -/
def CtyValue.isBoolTyped : CtyValue → Bool
  | .boolVal _ => true
  | .nullVal .bool => true
  | _ => false

/-- Field lookup on an object value (used to state properties of built
objects; Go reads the corresponding map entry). -/
def CtyValue.lookupField (v : CtyValue) (k : String) : Option CtyValue :=
  match v with
  | .objectVal fields => fields.lookup k
  | _ => none

/-! ## Retry classification (pkg/provider, `shouldRetry` and the code sets) -/

/-- `isPrefixL sub l`: the character list `sub` starts the list `l`. -/
def startsWithChars : List Char → List Char → Bool
  | [], _ => true
  | _ :: _, [] => false
  | a :: as, b :: bs => a == b && startsWithChars as bs

/-- Substring test on character lists, the semantics of Go's
`strings.Contains`. -/
def containsChars : List Char → List Char → Bool
  | [], sub => sub.isEmpty
  | h :: t, sub => startsWithChars sub (h :: t) || containsChars t sub

/-- `strings.Contains s sub`. -/
def strContains (s sub : String) : Bool :=
  containsChars s.toList sub.toList

/-- `retryableCodes` (copied by the code from the AWS SDK retryer):
`request.ErrCodeRequestError = "RequestError"`,
`request.ErrCodeResponseTimeout = "ResponseTimeout"`. -/
def retryableCodes : List String :=
  ["RequestError", "RequestTimeout", "ResponseTimeout", "RequestTimeoutException"]

/-- `throttleCodes` (copied by the code from the AWS SDK retryer). -/
def throttleCodes : List String :=
  ["ProvisionedThroughputExceededException", "ThrottledException", "Throttling",
   "ThrottlingException", "RequestLimitExceeded", "RequestThrottled",
   "RequestThrottledException", "TooManyRequestsException", "PriorRequestNotComplete",
   "TransactionInProgressException", "EC2ThrottledException"]

/-- `credsExpiredCodes` (copied by the code from the AWS SDK retryer). -/
def credsExpiredCodes : List String :=
  ["ExpiredToken", "ExpiredTokenException", "RequestExpired"]

/-- `isCodeThrottle`: the error message contains some throttling code. -/
def isCodeThrottle (err : String) : Bool :=
  throttleCodes.any fun code => strContains err code

/-- `isCodeExpiredCreds`: the error message contains some expired-credentials
code. -/
def isCodeExpiredCreds (err : String) : Bool :=
  credsExpiredCodes.any fun code => strContains err code

/-- `isCodeRetryable`: a retryable transport code, or expired credentials. -/
def isCodeRetryable (err : String) : Bool :=
  (retryableCodes.any fun code => strContains err code) || isCodeExpiredCreds err

/-- `shouldRetry`: the request should be retried. -/
def shouldRetry (err : String) : Bool :=
  isCodeRetryable err || isCodeThrottle err

/-! ## Force-destroy coercion (pkg/provider, `enableForceDestroyAttributes`) -/

/-- The loop body of `enableForceDestroyAttributes`, one field at a time:
a bool-typed `force_detach_policies` / `force_destroy` field becomes
`true`; a field of one of these names with a non-bool type is not copied;
every other field is copied unchanged. -/
def forceDestroyEntry (kv : String × CtyValue) : Option (String × CtyValue) :=
  if kv.1 == "force_detach_policies" || kv.1 == "force_destroy" then
    if kv.2.isBoolTyped then some (kv.1, .boolVal true) else none
  else some kv

/-- `enableForceDestroyAttributes`: sets the boolean force-destroy
attributes of a resource state to true; a null state is passed through. -/
def enableForceDestroyAttributes (state : CtyValue) : CtyValue :=
  if state.isNull then state
  else if state.canIterateElements then
    .objectVal (state.asValueMap.filterMap forceDestroyEntry)
  else .objectVal []

/-! ## The provider adapter's retry loop

`ImportResource`, `ReadResource` and `DestroyResource` each wrap one plugin
RPC in `resource.Retry(budget, f)` (hashicorp terraform v0.12 helper):
`f` stores the RPC response in a captured variable and returns a
`RetryableError` when the response diagnostics classify via `shouldRetry`,
and `nil` otherwise (both on success and on a non-classifiable error);
`Retry` repeats `f` while it returns a `RetryableError` and the budget is
not exhausted, and reports a non-nil error exactly when the budget expires.
After the loop the adapter first returns the captured response's
diagnostics error when there is one, and only otherwise maps a budget
expiration to the "timed out" error.

The budget is modelled by fuel (how many further attempts the budget
allows); one plugin attempt either completes with optional diagnostics or
outlives the whole remaining budget (`hangs`). -/

/-- One plugin RPC attempt as the retry loop sees it. -/
inductive Attempt where
  | hangs
  | completes (diag : Option String)

/-- The state in which the retry loop ends: the diagnostics of the last
completed attempt (the captured response), and whether the loop ended by
budget expiration (`Retry` returned a non-nil error). -/
structure RetryState where
  response : Option String
  timedOut : Bool
  deriving DecidableEq

/-- The `resource.Retry` loop around one adapter RPC. `attempts i` is the
plugin's behaviour on the i-th call; `resp` is the captured response
before the current attempt; `fuel` is the number of further attempts the
budget allows. -/
def retryRun (attempts : Nat → Attempt) : Nat → Nat → Option String → RetryState
  | i, fuel, resp =>
    match attempts i with
    | .hangs => { response := resp, timedOut := true }
    | .completes none => { response := none, timedOut := false }
    | .completes (some msg) =>
      if shouldRetry msg then
        match fuel with
        | 0 => { response := some msg, timedOut := true }
        | fuel' + 1 => retryRun attempts (i + 1) fuel' (some msg)
      else { response := some msg, timedOut := false }

/-- `TerraformProvider.DestroyResource`, error behaviour: run the retry
loop, then return the captured diagnostics error if any, else the
timed-out error if the budget expired, else success (`none`).
`timeoutStr` is the printed form of `p.timeout`. -/
def destroyResourceRPC (attempts : Nat → Attempt) (fuel : Nat) (timeoutStr : String) :
    Option String :=
  let st := retryRun attempts 0 fuel none
  match st.response with
  | some msg => some msg
  | none => if st.timedOut then some ("destroy timed out (" ++ timeoutStr ++ ")") else none

/-- `TerraformProvider.ImportResource`, error behaviour (same loop shape,
"import timed out" message). -/
def importResourceRPC (attempts : Nat → Attempt) (fuel : Nat) (timeoutStr : String) :
    Option String :=
  let st := retryRun attempts 0 fuel none
  match st.response with
  | some msg => some msg
  | none => if st.timedOut then some ("import timed out (" ++ timeoutStr ++ ")") else none

/-! ## Provider surface and schema (pkg/provider) -/

/-- An imported resource descriptor (`providers.ImportedResource`). -/
structure ImportedResource where
  typeName : String
  state : CtyValue

/-- The empty value of a schema attribute:
`configschema.Attribute.EmptyValue()` is `cty.NullVal(a.Type)`. -/
def attrEmptyValue (ty : CtyType) : CtyValue :=
  .nullVal ty

/-- A schema block (`configschema.Block`): attributes with their types, and
nested block types with their (pre-computed) empty values. -/
structure Block where
  attributes : List (String × CtyType)
  blockTypes : List (String × CtyValue)

/-- A resource schema (`providers.Schema`). -/
structure Schema where
  block : Block

/-- The provider adapter surface used by the resource engine, each
operation modelled denotationally (retry loops already applied). -/
structure TerraformProvider where
  readResource : String → CtyValue → Except String CtyValue
  importResource : String → String → Except String (List ImportedResource)
  getSchemaForResource : String → Except String Schema
  destroyResource : String → CtyValue → Option String

/-! ## The resource engine (pkg/resource) -/

/-- A destroyable Terraform resource (`resource.Resource`). -/
structure Resource where
  terraformType : String
  id : String
  provider : TerraformProvider
  state : Option CtyValue

/-- The errors `Resource.Destroy` can return: a plain error, or a
`RetryDestroyError` carrying the failed resource and the cause. -/
inductive DestroyError (R : Type) where
  | plain (msg : String)
  | retry (cause : String) (resource : R)

/-- `NewRetryDestroyError`: wraps a non-nil error and the resource into a
`RetryDestroyError`; a nil error yields a nil result. -/
def NewRetryDestroyError {R : Type} (err : Option String) (r : R) : Option (DestroyError R) :=
  match err with
  | none => none
  | some e => some (.retry e r)

/-- `Resource.Destroy`: fails plainly when the state is nil, otherwise
calls the provider's destroy and wraps any failure via
`NewRetryDestroyError`. -/
def Resource.destroy (r : Resource) : Option (DestroyError Resource) :=
  match r.state with
  | none => some (.plain "resource state is nil; need to call update first")
  | some s =>
    match r.provider.destroyResource r.terraformType s with
    | some err => NewRetryDestroyError (some err) r
    | none => none

/-! ## State refresh (pkg/resource/update.go) -/

/-- Insertion into the association list modelling a Go
`map[string]cty.Value`: a later write for an existing key overwrites it. -/
def insertField (m : List (String × CtyValue)) (k : String) (v : CtyValue) :
    List (String × CtyValue) :=
  match m with
  | [] => [(k, v)]
  | kv :: rest => if kv.1 == k then (k, v) :: rest else kv :: insertField rest k v

/-- `emptyValueWitID`: a non-null object for the configuration block where
every attribute (and nested block) holds its empty value, except `id`,
which is set to the given id. -/
def emptyValueWitID (id : String) (block : Block) : CtyValue :=
  let vals := block.attributes.foldl (fun m kv => insertField m kv.1 (attrEmptyValue kv.2)) []
  let vals := block.blockTypes.foldl (fun m kv => insertField m kv.1 kv.2) vals
  .objectVal (insertField vals "id" (.stringVal id))

/-- The loop of `importAndReadResource` over the imported descriptors:
read each one in order and return the refreshed state of the first whose
type name matches the resource's type. -/
def Resource.readImported (r : Resource) : List ImportedResource → Except String CtyValue
  | [] => .error "no resource found to be imported"
  | ri :: rest =>
    match r.provider.readResource ri.typeName ri.state with
    | .error e => .error e
    | .ok current =>
      if ri.typeName == r.terraformType then .ok current
      else r.readImported rest

/-- `Resource.importAndReadResource`: import by type and id, then read the
type-matched imported descriptor. -/
def Resource.importAndReadResource (r : Resource) : Except String CtyValue :=
  match r.provider.importResource r.terraformType r.id with
  | .error e => .error e
  | .ok imported => r.readImported imported

/-- `Resource.readResource`: fetch the current state based on the ID
attribute alone, via an id-only synthetic state shaped by the schema. -/
def Resource.readResource (r : Resource) : Except String CtyValue :=
  match r.provider.getSchemaForResource r.terraformType with
  | .error e => .error e
  | .ok schema =>
    match r.provider.readResource r.terraformType (emptyValueWitID r.id schema.block) with
    | .error e => .error ("failed to read current state of resource: " ++ e)
    | .ok current => .ok current

/-- `Resource.UpdateState`: refresh the stored state if there is one;
otherwise import-and-read; if that fails, read from the id-only synthetic
state. -/
def Resource.updateState (r : Resource) : Except String Resource :=
  match r.state with
  | some s =>
    match r.provider.readResource r.terraformType s with
    | .error e => .error ("failed to read current state of resource: " ++ e)
    | .ok result => .ok { r with state := some result }
  | none =>
    match r.importAndReadResource with
    | .ok result => .ok { r with state := some result }
    | .error _ =>
      match r.readResource with
      | .error e => .error e
      | .ok result => .ok { r with state := some result }

/-- `UpdateResources` (its sequential denotation, meaningful for any
worker count `parallel ≥ 1`): update every resource and keep only those
that updated without error and still exist remotely (non-null refreshed
state). -/
def updateResources (parallel : Nat) (resources : List Resource) : List Resource :=
  resources.filterMap fun r =>
    match r.updateState with
    | .error _ => none
    | .ok updated =>
      match updated.state with
      | some v => if v.isNull then none else some updated
      | none => none

/-! ## The destruction scheduler (pkg/resource/destroy.go)

`DestroyResources` is generic over the `DestroyableResource` interface;
the embedding is generic over the resource type `R`. Because destroys in
a later run (after dependencies are gone) can behave differently,
per-resource destroy results are indexed by the run number:
`destroyAt run r` is what `r.Destroy()` returns during run `run`. The
worker pool is modelled by its sequential denotation (each resource
produces exactly one worker result, independent of the others), which is
meaningful for any worker count `parallel ≥ 1`. -/

/-- The outcome one worker reports for one resource. `goneRemote` is the
phase of resources whose refresh showed them already deleted; such
resources are filtered out before the scheduler and no worker ever
produces this outcome. -/
inductive DestroyOutcome where
  | deleted
  | goneRemote
  | retryable
  | permanent
  deriving DecidableEq

/-- `workerDestroy`, per resource: a nil error means the resource was
deleted; a `RetryDestroyError` is reported for a retry; any other error
is dropped (the resource is logged as undeletable). -/
def workerOutcome {R : Type} : Option (DestroyError R) → DestroyOutcome
  | none => .deleted
  | some (.retry _ _) => .retryable
  | some (.plain _) => .permanent

/-- The number of resources a run deletes (`numOfDeletedResources` after
draining the results channel). -/
def numDeletedIn {R : Type} (destroy : R → Option (DestroyError R)) (rs : List R) : Nat :=
  (rs.filter fun r => workerOutcome (destroy r) == DestroyOutcome.deleted).length

/-- The resources collected from the run's `RetryDestroyError`s
(`retryErr.Resource` for each retryable worker result, in input order). -/
def retryableIn {R : Type} (destroy : R → Option (DestroyError R)) (rs : List R) : List R :=
  rs.filterMap fun r =>
    match destroy r with
    | some (.retry _ res) => some res
    | _ => none

/-- Sum of the lengths of two disjoint filters of one list. -/
theorem filter_disjoint_length_le {α : Type} (p q : α → Bool) (l : List α)
    (hpq : ∀ a, ¬(p a = true ∧ q a = true)) :
    (l.filter p).length + (l.filter q).length ≤ l.length := by
  induction l with
  | nil => simp
  | cons a t ih =>
    cases hp : p a with
    | false =>
      cases hq : q a with
      | false => simp [List.filter_cons, hp, hq]; omega
      | true => simp [List.filter_cons, hp, hq]; omega
    | true =>
      cases hq : q a with
      | false => simp [List.filter_cons, hp, hq]; omega
      | true => exact absurd ⟨hp, hq⟩ (hpq a)

/-- A resource contributes to `retryableIn` exactly when its worker
outcome is `retryable`, so the two counts agree. -/
theorem retryableIn_length {R : Type} (destroy : R → Option (DestroyError R)) (rs : List R) :
    (retryableIn destroy rs).length
      = (rs.filter fun r => workerOutcome (destroy r) == DestroyOutcome.retryable).length := by
  induction rs with
  | nil => rfl
  | cons a t ih =>
    cases h : destroy a with
    | none =>
      have h1 : retryableIn destroy (a :: t) = retryableIn destroy t := by
        simp [retryableIn, List.filterMap_cons, h]
      have h2 : (a :: t).filter (fun r => workerOutcome (destroy r) == DestroyOutcome.retryable)
          = t.filter (fun r => workerOutcome (destroy r) == DestroyOutcome.retryable) := by
        rw [List.filter_cons_of_neg]
        simp [h, workerOutcome]
      rw [h1, h2, ih]
    | some e =>
      cases e with
      | plain m =>
        have h1 : retryableIn destroy (a :: t) = retryableIn destroy t := by
          simp [retryableIn, List.filterMap_cons, h]
        have h2 : (a :: t).filter (fun r => workerOutcome (destroy r) == DestroyOutcome.retryable)
            = t.filter (fun r => workerOutcome (destroy r) == DestroyOutcome.retryable) := by
          rw [List.filter_cons_of_neg]
          simp [h, workerOutcome]
        rw [h1, h2, ih]
      | retry c res =>
        have h1 : retryableIn destroy (a :: t) = res :: retryableIn destroy t := by
          simp [retryableIn, List.filterMap_cons, h]
        have h2 : (a :: t).filter (fun r => workerOutcome (destroy r) == DestroyOutcome.retryable)
            = a :: t.filter (fun r => workerOutcome (destroy r) == DestroyOutcome.retryable) := by
          rw [List.filter_cons_of_pos]
          simp [h, workerOutcome]
        rw [h1, h2]
        simp [ih]

/-- In one run, the retryable set is strictly smaller than the input
whenever at least one resource was deleted. -/
theorem retryableIn_lt_of_deleted {R : Type} (destroy : R → Option (DestroyError R))
    (rs : List R) (hdel : 0 < numDeletedIn destroy rs) :
    (retryableIn destroy rs).length < rs.length := by
  have hdisj : ∀ r : R, ¬((workerOutcome (destroy r) == DestroyOutcome.deleted) = true ∧
      (workerOutcome (destroy r) == DestroyOutcome.retryable) = true) := by
    intro r ⟨h1, h2⟩
    simp only [beq_iff_eq] at h1 h2
    rw [h1] at h2
    exact absurd h2 (by simp)
  have hsum := filter_disjoint_length_le
    (fun r => workerOutcome (destroy r) == DestroyOutcome.deleted)
    (fun r => workerOutcome (destroy r) == DestroyOutcome.retryable) rs hdisj
  rw [retryableIn_length]
  unfold numDeletedIn at hdel
  omega

/-- `DestroyResources`: destroy every resource of the run; if at least one
was deleted and some failed retryably, recurse on exactly the retryable
set; a run that deletes nothing reports its retryable set under "retries
exceeded" and stops. Returns the total number of deleted resources and
the list reported under "retries exceeded" (empty when all were deleted
or the failures were permanent). Meaningful for any `parallel ≥ 1`. -/
def destroyResources {R : Type} (parallel : Nat) (destroyAt : Nat → R → Option (DestroyError R))
    (run : Nat) (rs : List R) : Nat × List R :=
  let numDeleted := numDeletedIn (destroyAt run) rs
  let retryable := retryableIn (destroyAt run) rs
  if h : 0 < retryable.length ∧ 0 < numDeleted then
    let deeper := destroyResources parallel destroyAt (run + 1) retryable
    (numDeleted + deeper.1, deeper.2)
  else if 0 < retryable.length then
    (numDeleted, retryable)
  else
    (numDeleted, [])
termination_by rs.length
decreasing_by
  exact retryableIn_lt_of_deleted (destroyAt run) rs h.2

/-! ## State enumeration (pkg/state, `State.Resources`) -/

/-- The JSON-encoded attributes of a v4 resource instance, as
`getResourceID` sees them: either malformed (unmarshalling fails) or a
JSON object whose decoded `id` field is the given string (`""` when the
field is absent). -/
inductive AttrsJSON where
  | malformed
  | decoded (id : String)

/-- The current object of a resource instance: optional JSON attributes
(v4), optional flat attributes (v3), and the result of decoding the
stored attributes against a resource schema
(`resInstance.Current.Decode(schema.Block.ImpliedType())`). -/
structure CurrentObj where
  attrsJSON : Option AttrsJSON
  attrsFlat : Option (List (String × String))
  decode : Schema → Except String CtyValue

/-- A resource instance in the state (`states.ResourceInstance`). -/
structure ResInstance where
  current : Option CurrentObj

/-- The resource mode: managed or data. -/
inductive Mode where
  | managed
  | dataMode
  deriving DecidableEq

/-- One entry of the sorted resource-instance walk of the state: address
metadata and the instance itself. -/
structure StateEntry where
  mode : Mode
  ty : String
  providerName : String
  inst : ResInstance

/-- `getResourceID`: the `id` amongst the instance's attributes, with the
exact failure cases of the code (no current object, malformed JSON,
missing flat map). -/
def getResourceID (ri : ResInstance) : Except String String :=
  match ri.current with
  | none => .error "resource instance has no current object"
  | some cur =>
    match cur.attrsJSON with
    | some .malformed =>
      .error "failed to unmarshal JSON-encoded resource instance attributes"
    | some (.decoded id) => .ok id
    | none =>
      match cur.attrsFlat with
      | none => .error "flat attribute map of resource instance is nil"
      | some flat => .ok ((flat.lookup "id").getD "")

/-- `getResourceState`: decode the stored attributes of the instance
against the provider's schema for the resource type. -/
def getResourceState (ri : ResInstance) (rType : String) (p : TerraformProvider) :
    Except String CtyValue :=
  match ri.current with
  | none => .error "resource instance has no current object"
  | some cur =>
    match p.getSchemaForResource rType with
    | .error e => .error e
    | .ok schema => cur.decode schema

/-- `State.Resources`: walk the sorted resource instances; any id
extraction or state decoding failure aborts with an error (no partial
catalog); data-mode instances and instances of providers absent from the
given mapping are skipped. -/
def stateResources (providers : List (String × TerraformProvider)) :
    List StateEntry → Except String (List Resource)
  | [] => .ok []
  | e :: rest =>
    match getResourceID e.inst with
    | .error err => .error ("failed to get id for resource: " ++ err)
    | .ok resID =>
      if e.mode ≠ Mode.managed then
        stateResources providers rest
      else
        match providers.lookup e.providerName with
        | none => stateResources providers rest
        | some p =>
          match getResourceState e.inst e.ty p with
          | .error err => .error ("failed to decode resource into object: " ++ err)
          | .ok resObject =>
            match stateResources providers rest with
            | .error err => .error err
            | .ok tail =>
              .ok ({ terraformType := e.ty, id := resID, provider := p,
                     state := some resObject : Resource } :: tail)

/-! ## Claim theorems -/

/-- Applying `forceDestroyEntry` to a field it produced leaves the field
unchanged. -/
theorem forceDestroyEntry_stable (kv kv' : String × CtyValue)
    (h : forceDestroyEntry kv = some kv') : forceDestroyEntry kv' = some kv' := by
  unfold forceDestroyEntry at h ⊢
  by_cases hname : (kv.1 == "force_detach_policies" || kv.1 == "force_destroy") = true
  · rw [if_pos hname] at h
    by_cases hbool : kv.2.isBoolTyped = true
    · rw [if_pos hbool] at h
      cases h
      rw [if_pos hname]
      rfl
    · rw [if_neg hbool] at h
      cases h
  · rw [if_neg hname] at h
    cases h
    rw [if_neg hname]

/-- `filterMap forceDestroyEntry` is idempotent on field lists. -/
theorem filterMap_forceDestroyEntry_idem (l : List (String × CtyValue)) :
    (l.filterMap forceDestroyEntry).filterMap forceDestroyEntry
      = l.filterMap forceDestroyEntry := by
  induction l with
  | nil => rfl
  | cons kv t ih =>
    cases h : forceDestroyEntry kv with
    | none => simp [List.filterMap_cons, h, ih]
    | some kv' => simp [List.filterMap_cons, h, forceDestroyEntry_stable kv kv' h, ih]

/-- C6: Force-destroy coercion is idempotent: for every state value,
applying `enableForceDestroyAttributes` twice yields the same result as
applying it once. -/
theorem claim_c6_force_destroy_idempotent (s : CtyValue) :
    enableForceDestroyAttributes (enableForceDestroyAttributes s)
      = enableForceDestroyAttributes s := by
  cases s with
  | nullVal ty => rfl
  | boolVal b => rfl
  | stringVal str => rfl
  | objectVal fields =>
    show enableForceDestroyAttributes (.objectVal (fields.filterMap forceDestroyEntry))
      = .objectVal (fields.filterMap forceDestroyEntry)
    unfold enableForceDestroyAttributes
    simp only [CtyValue.isNull, CtyValue.canIterateElements, CtyValue.asValueMap,
      Bool.false_eq_true, if_false, if_true]
    rw [filterMap_forceDestroyEntry_idem]

/-- C3: the force-destroy coercion replaces every top-level bool-typed
field named `force_destroy` or `force_detach_policies` by `true`, keeps
every field with any other name unchanged, and passes a null state
through unchanged. -/
theorem claim_c3_force_destroy_coercion (s : CtyValue) :
    (s.isNull = true → enableForceDestroyAttributes s = s)
    ∧ (∀ fields k v, s = CtyValue.objectVal fields → (k, v) ∈ fields →
        (((k = "force_destroy" ∨ k = "force_detach_policies") ∧ v.isBoolTyped = true) →
          (k, CtyValue.boolVal true) ∈ (enableForceDestroyAttributes s).asValueMap)
        ∧ ((k ≠ "force_destroy" ∧ k ≠ "force_detach_policies") →
          (k, v) ∈ (enableForceDestroyAttributes s).asValueMap)) := by
  constructor
  · intro hnull
    unfold enableForceDestroyAttributes
    rw [if_pos hnull]
  · intro fields k v hs hmem
    subst hs
    have hresult : (enableForceDestroyAttributes (CtyValue.objectVal fields)).asValueMap
        = fields.filterMap forceDestroyEntry := rfl
    rw [hresult]
    constructor
    · rintro ⟨hname, hbool⟩
      rw [List.mem_filterMap]
      refine ⟨(k, v), hmem, ?_⟩
      unfold forceDestroyEntry
      have hn : (k == "force_detach_policies" || k == "force_destroy") = true := by
        rcases hname with h | h <;> simp [h]
      rw [if_pos hn, if_pos hbool]
    · rintro ⟨h1, h2⟩
      rw [List.mem_filterMap]
      refine ⟨(k, v), hmem, ?_⟩
      unfold forceDestroyEntry
      have hn : (k == "force_detach_policies" || k == "force_destroy") = false := by
        simp [h1, h2]
      rw [hn]
      rfl

/-- A concrete instance for C3: an S3-bucket-like state with
`force_destroy = false` gets `force_destroy = true`; the other attribute
is passed through. -/
theorem claim_c3_force_destroy_coercion_witness :
    ("force_destroy", CtyValue.boolVal true)
      ∈ (enableForceDestroyAttributes (CtyValue.objectVal
          [("force_destroy", CtyValue.boolVal false),
           ("acl", CtyValue.stringVal "private")])).asValueMap
    ∧ ("acl", CtyValue.stringVal "private")
      ∈ (enableForceDestroyAttributes (CtyValue.objectVal
          [("force_destroy", CtyValue.boolVal false),
           ("acl", CtyValue.stringVal "private")])).asValueMap := by
  have h := claim_c3_force_destroy_coercion (CtyValue.objectVal
    [("force_destroy", CtyValue.boolVal false), ("acl", CtyValue.stringVal "private")])
  constructor
  · exact (h.2 _ "force_destroy" (CtyValue.boolVal false) rfl
      (List.Mem.head _)).1 ⟨Or.inl rfl, rfl⟩
  · exact (h.2 _ "acl" (CtyValue.stringVal "private") rfl
      (List.Mem.tail _ (List.Mem.head _))).2 ⟨by decide, by decide⟩

/-- A provider whose destroy fails with an error that `shouldRetry` does
not classify (the non-retryable message of the code's own
`Test_shouldRetry` test). -/
def pFail : TerraformProvider :=
  { readResource := fun _ s => .ok s
    importResource := fun _ _ => .ok []
    getSchemaForResource := fun _ => .error "failed to get schema for resource"
    destroyResource := fun _ _ => some "SomeError: foo bar" }

/-- A refreshed resource bound to `pFail`. -/
def rFail : Resource :=
  { terraformType := "aws_vpc", id := "vpc-1234", provider := pFail
    state := some (.objectVal [("id", .stringVal "vpc-1234")]) }

/-- C1 counterexample: the provider fails with `"SomeError: foo bar"`,
which the adapter does NOT classify as retryable/throttle/expired, yet
`Resource.Destroy` still wraps it into a `RetryDestroyError` — it never
returns a distinct permanent error for unclassifiable causes (no such
error type exists in the code). -/
theorem claim_c1_destroy_wrap_counterexample :
    shouldRetry "SomeError: foo bar" = false
    ∧ Resource.destroy rFail
        = some (DestroyError.retry "SomeError: foo bar" rFail) := by
  constructor
  · decide
  · rfl

/-- C1 amended: for every resource with a non-nil state whose provider
destroy call fails, `Resource.Destroy` wraps the error into a
`RetryDestroyError` carrying the instance and the cause, regardless of
whether the cause classifies as retryable/throttle/expired; a resource
with nil state fails with a plain error instead. -/
theorem claim_c1_destroy_always_retry_wrap (r : Resource) (s : CtyValue) (e : String)
    (hs : r.state = some s)
    (hd : r.provider.destroyResource r.terraformType s = some e) :
    Resource.destroy r = some (DestroyError.retry e r) := by
  simp [Resource.destroy, hs, hd, NewRetryDestroyError]

/-- Concrete instance of the amended C1 theorem. -/
theorem claim_c1_destroy_always_retry_wrap_witness :
    Resource.destroy rFail = some (DestroyError.retry "SomeError: foo bar" rFail) :=
  claim_c1_destroy_always_retry_wrap rFail
    (.objectVal [("id", .stringVal "vpc-1234")]) "SomeError: foo bar" rfl rfl

/-- C4: `shouldRetry` holds exactly when the error message contains a
member of the union of the three code sets; and a destroy whose first
attempt completes with a non-classifiable diagnostic is surfaced
immediately (no further attempt, whatever budget remains). -/
theorem claim_c4_retry_classifier (msg : String) :
    (shouldRetry msg = true ↔
      ∃ code ∈ retryableCodes ++ throttleCodes ++ credsExpiredCodes,
        strContains msg code = true)
    ∧ (∀ attempts fuel timeoutStr, attempts 0 = Attempt.completes (some msg) →
        shouldRetry msg = false →
        destroyResourceRPC attempts fuel timeoutStr = some msg) := by
  constructor
  · unfold shouldRetry isCodeRetryable isCodeThrottle isCodeExpiredCreds
    simp only [Bool.or_eq_true, List.any_eq_true, List.mem_append]
    constructor
    · rintro ((⟨c, hc, hs⟩ | ⟨c, hc, hs⟩) | ⟨c, hc, hs⟩)
      · exact ⟨c, Or.inl (Or.inl hc), hs⟩
      · exact ⟨c, Or.inr hc, hs⟩
      · exact ⟨c, Or.inl (Or.inr hc), hs⟩
    · rintro ⟨c, (hc | hc) | hc, hs⟩
      · exact Or.inl (Or.inl ⟨c, hc, hs⟩)
      · exact Or.inr ⟨c, hc, hs⟩
      · exact Or.inl (Or.inr ⟨c, hc, hs⟩)
  · intro attempts fuel timeoutStr h0 hsr
    unfold destroyResourceRPC retryRun
    rw [h0]
    simp [hsr]

/-- Concrete instance of the C4 theorem: `"AccessDenied"` contains no code
of the three sets, so a destroy failing with it is surfaced immediately
with that very diagnostic. -/
theorem claim_c4_retry_classifier_witness :
    destroyResourceRPC (fun _ => Attempt.completes (some "AccessDenied")) 5 "30s"
      = some "AccessDenied" :=
  (claim_c4_retry_classifier "AccessDenied").2
    (fun _ => Attempt.completes (some "AccessDenied")) 5 "30s" rfl (by decide)

/-- When every attempt up to the budget completes with a retryable
diagnostic, the retry loop ends by budget expiration with the last
attempt's diagnostics captured as the response. -/
theorem retryRun_all_retryable (attempts : Nat → Attempt) (m : Nat → String) :
    ∀ fuel i resp,
      (∀ j, j ≤ fuel → attempts (i + j) = Attempt.completes (some (m (i + j)))) →
      (∀ j, j ≤ fuel → shouldRetry (m (i + j)) = true) →
      retryRun attempts i fuel resp
        = { response := some (m (i + fuel)), timedOut := true } := by
  intro fuel
  induction fuel with
  | zero =>
    intro i resp hcomp hretry
    have h0 : attempts i = Attempt.completes (some (m i)) := by
      have := hcomp 0 (Nat.le_refl 0)
      simpa using this
    have hr0 : shouldRetry (m i) = true := by
      have := hretry 0 (Nat.le_refl 0)
      simpa using this
    unfold retryRun
    rw [h0]
    simp [hr0]
  | succ fuel ih =>
    intro i resp hcomp hretry
    have h0 : attempts i = Attempt.completes (some (m i)) := by
      have := hcomp 0 (Nat.zero_le _)
      simpa using this
    have hr0 : shouldRetry (m i) = true := by
      have := hretry 0 (Nat.zero_le _)
      simpa using this
    unfold retryRun
    rw [h0]
    simp only [hr0, if_true]
    have hrec := ih (i + 1) (some (m i))
      (fun j hj => by
        have := hcomp (j + 1) (Nat.succ_le_succ hj)
        have harith : i + (j + 1) = i + 1 + j := by omega
        rw [harith] at this
        exact this)
      (fun j hj => by
        have := hretry (j + 1) (Nat.succ_le_succ hj)
        have harith : i + (j + 1) = i + 1 + j := by omega
        rw [harith] at this
        exact this)
    rw [hrec]
    have harith : i + 1 + fuel = i + (fuel + 1) := by omega
    rw [harith]

/-- The diagnostic every attempt fails with in the C9 scenario. -/
def alwaysThrottled : Nat → Attempt :=
  fun _ => Attempt.completes (some "ThrottlingException: Rate exceeded")

/-- C9 counterexample: with a budget of 3 attempts all completing with a
retryable throttling diagnostic, `DestroyResource` does NOT return the
budget-expiration ("destroy timed out") error: the diagnostics check
precedes the timeout check, so the last attempt's diagnostic error is
returned instead. -/
theorem claim_c9_timeout_error_counterexample :
    shouldRetry "ThrottlingException: Rate exceeded" = true
    ∧ destroyResourceRPC alwaysThrottled 2 "30s"
        = some "ThrottlingException: Rate exceeded"
    ∧ "ThrottlingException: Rate exceeded" ≠ "destroy timed out (30s)" := by
  refine ⟨by decide, by rfl, by decide⟩

/-- C9 amended: when every retry attempt within the per-call budget
completes with a retryable diagnostic, the call stops retrying once the
budget expires and returns exactly one error — the last attempt's
diagnostic error; the "timed out" error naming the operation and the
budget is returned only when the budget expires with the captured
response carrying no error diagnostics (e.g. the only attempt outlives
the whole budget). -/
theorem claim_c9_budget_expiration (attempts : Nat → Attempt) (fuel : Nat)
    (timeoutStr : String) (m : Nat → String)
    (hcomp : ∀ j, j ≤ fuel → attempts j = Attempt.completes (some (m j)))
    (hretry : ∀ j, j ≤ fuel → shouldRetry (m j) = true) :
    destroyResourceRPC attempts fuel timeoutStr = some (m fuel)
    ∧ importResourceRPC attempts fuel timeoutStr = some (m fuel)
    ∧ destroyResourceRPC (fun _ => Attempt.hangs) fuel timeoutStr
        = some ("destroy timed out (" ++ timeoutStr ++ ")") := by
  have hloop := retryRun_all_retryable attempts m fuel 0 none
    (fun j hj => by simpa using hcomp j hj)
    (fun j hj => by simpa using hretry j hj)
  have hfuel : (0 : Nat) + fuel = fuel := by omega
  rw [hfuel] at hloop
  refine ⟨?_, ?_, ?_⟩
  · unfold destroyResourceRPC
    rw [hloop]
  · unfold importResourceRPC
    rw [hloop]
  · unfold destroyResourceRPC retryRun
    rfl

/-- Concrete instance of the amended C9 theorem: a 3-attempt budget, all
attempts throttled. -/
theorem claim_c9_budget_expiration_witness :
    destroyResourceRPC alwaysThrottled 2 "30s"
        = some "ThrottlingException: Rate exceeded"
    ∧ importResourceRPC alwaysThrottled 2 "30s"
        = some "ThrottlingException: Rate exceeded"
    ∧ destroyResourceRPC (fun _ => Attempt.hangs) 2 "30s"
        = some "destroy timed out (30s)" :=
  claim_c9_budget_expiration alwaysThrottled 2 "30s"
    (fun _ => "ThrottlingException: Rate exceeded")
    (fun _ _ => rfl)
    (fun j _ => by
      show shouldRetry "ThrottlingException: Rate exceeded" = true
      decide)

/-- One-step unfolding of `destroyResources`. -/
theorem destroyResources_step {R : Type} (parallel : Nat)
    (destroyAt : Nat → R → Option (DestroyError R)) (run : Nat) (rs : List R) :
    destroyResources parallel destroyAt run rs
      = if 0 < (retryableIn (destroyAt run) rs).length
            ∧ 0 < numDeletedIn (destroyAt run) rs then
          (numDeletedIn (destroyAt run) rs
            + (destroyResources parallel destroyAt (run + 1)
                (retryableIn (destroyAt run) rs)).1,
           (destroyResources parallel destroyAt (run + 1)
              (retryableIn (destroyAt run) rs)).2)
        else if 0 < (retryableIn (destroyAt run) rs).length then
          (numDeletedIn (destroyAt run) rs, retryableIn (destroyAt run) rs)
        else
          (numDeletedIn (destroyAt run) rs, []) := by
  conv_lhs => rw [destroyResources]
  by_cases h : 0 < (retryableIn (destroyAt run) rs).length
      ∧ 0 < numDeletedIn (destroyAt run) rs
  · simp only [dif_pos h, if_pos h]
  · simp only [dif_neg h, if_neg h]

/-- C2: `DestroyResources` recurses on exactly the retryable set if and
only if the current run deleted at least one resource and that set is
non-empty; each recursive input is strictly smaller than the current
input (so the recursion terminates); and a run that deletes nothing but
leaves retryable failures reports exactly those resources under
"retries exceeded" and launches no further run. -/
theorem claim_c2_retry_until_fixed_point {R : Type} (parallel : Nat)
    (hp : 1 ≤ parallel) (destroyAt : Nat → R → Option (DestroyError R))
    (run : Nat) (rs : List R) :
    (0 < (retryableIn (destroyAt run) rs).length →
      0 < numDeletedIn (destroyAt run) rs →
      destroyResources parallel destroyAt run rs
        = (numDeletedIn (destroyAt run) rs
            + (destroyResources parallel destroyAt (run + 1)
                (retryableIn (destroyAt run) rs)).1,
           (destroyResources parallel destroyAt (run + 1)
              (retryableIn (destroyAt run) rs)).2)
      ∧ (retryableIn (destroyAt run) rs).length < rs.length)
    ∧ (0 < (retryableIn (destroyAt run) rs).length →
      numDeletedIn (destroyAt run) rs = 0 →
      destroyResources parallel destroyAt run rs
        = (0, retryableIn (destroyAt run) rs))
    ∧ ((retryableIn (destroyAt run) rs).length = 0 →
      destroyResources parallel destroyAt run rs
        = (numDeletedIn (destroyAt run) rs, [])) := by
  refine ⟨?_, ?_, ?_⟩
  · intro hretry hdel
    constructor
    · rw [destroyResources_step]
      rw [if_pos ⟨hretry, hdel⟩]
    · exact retryableIn_lt_of_deleted (destroyAt run) rs hdel
  · intro hretry hdel
    rw [destroyResources_step]
    rw [if_neg (by omega), if_pos hretry, hdel]
  · intro hretry
    rw [destroyResources_step]
    rw [if_neg (by omega), if_neg (by omega)]

/-- The witness scenario for C2: two resources; in run 0 the VPC fails
retryably (its subnet still exists) while the subnet is deleted; in run 1
the VPC is deleted. -/
def destroyAtW : Nat → String → Option (DestroyError String) :=
  fun run r =>
    if run == 0 && r == "aws_vpc" then
      some (.retry "DependencyViolation" "aws_vpc")
    else none

/-- Concrete instance of the C2 theorem on the two-resource scenario. -/
theorem claim_c2_retry_until_fixed_point_witness :
    destroyResources 10 destroyAtW 0 ["aws_vpc", "aws_subnet"]
      = (numDeletedIn (destroyAtW 0) ["aws_vpc", "aws_subnet"]
          + (destroyResources 10 destroyAtW 1
              (retryableIn (destroyAtW 0) ["aws_vpc", "aws_subnet"])).1,
         (destroyResources 10 destroyAtW 1
            (retryableIn (destroyAtW 0) ["aws_vpc", "aws_subnet"])).2)
    ∧ (retryableIn (destroyAtW 0) ["aws_vpc", "aws_subnet"]).length
        < (["aws_vpc", "aws_subnet"] : List String).length :=
  (claim_c2_retry_until_fixed_point 10 (by omega) destroyAtW 0
    ["aws_vpc", "aws_subnet"]).1 (by decide) (by decide)

/-- The number of outcomes equal to `o` in a list of outcomes. -/
def countOutcome (o : DestroyOutcome) (l : List DestroyOutcome) : Nat :=
  (l.filter fun x => x == o).length

/-- Any list of worker outcomes is partitioned by the four outcome
kinds. -/
theorem countOutcome_partition (l : List DestroyOutcome) :
    countOutcome .deleted l + countOutcome .goneRemote l
      + countOutcome .permanent l + countOutcome .retryable l = l.length := by
  induction l with
  | nil => rfl
  | cons a t ih =>
    cases a <;> simp [countOutcome, List.filter_cons] at ih ⊢ <;> omega

/-- C7: in a `DestroyResources` run, each input resource produces exactly
one worker outcome, and the outcome counts partition the input: deleted +
gone-remote + permanently-failed + retryable equals the input size. -/
theorem claim_c7_outcomes_partition_input {R : Type}
    (destroy : R → Option (DestroyError R)) (rs : List R) :
    (rs.map fun r => workerOutcome (destroy r)).length = rs.length
    ∧ countOutcome .deleted (rs.map fun r => workerOutcome (destroy r))
      + countOutcome .goneRemote (rs.map fun r => workerOutcome (destroy r))
      + countOutcome .permanent (rs.map fun r => workerOutcome (destroy r))
      + countOutcome .retryable (rs.map fun r => workerOutcome (destroy r))
      = rs.length := by
  constructor
  · exact List.length_map rs _
  · rw [countOutcome_partition]
    exact List.length_map rs _

/-- C8: every resource in the list `UpdateResources` returns — the exact
list `mainExitCode` hands to `DestroyResources` — carries a non-null
refreshed state; hence a resource whose refresh yields a null state is
excluded and never reaches the destruction scheduler (and so no destroy
RPC is ever issued for it). -/
theorem claim_c8_null_refresh_excluded (parallel : Nat) (resources : List Resource)
    (r : Resource) (hmem : r ∈ updateResources parallel resources) :
    ∃ v, r.state = some v ∧ v.isNull = false := by
  unfold updateResources at hmem
  rw [List.mem_filterMap] at hmem
  obtain ⟨r0, _, hres⟩ := hmem
  cases hupd : r0.updateState with
  | error e => rw [hupd] at hres; cases hres
  | ok updated =>
    rw [hupd] at hres
    dsimp only at hres
    cases hstate : updated.state with
    | none => simp [hstate] at hres
    | some v =>
      simp only [hstate] at hres
      by_cases hnull : v.isNull = true
      · simp [hnull] at hres
      · have hv : v.isNull = false := by
          cases hb : v.isNull
          · rfl
          · exact absurd hb hnull
        rw [if_neg hnull] at hres
        cases hres
        exact ⟨v, hstate, hv⟩

/-- A provider whose read returns a live (non-null) refreshed state. -/
def pOk : TerraformProvider :=
  { readResource := fun _ _ => .ok (.objectVal [("id", .stringVal "vpc-1")])
    importResource := fun _ _ => .error "unused"
    getSchemaForResource := fun _ => .error "unused"
    destroyResource := fun _ _ => none }

/-- A resource with a stored state, bound to `pOk`. -/
def rLive : Resource :=
  { terraformType := "aws_vpc", id := "vpc-1", provider := pOk
    state := some (.objectVal []) }

/-- `rLive` after its refresh. -/
def rLiveUpdated : Resource :=
  { rLive with state := some (.objectVal [("id", .stringVal "vpc-1")]) }

/-- Concrete instance of the C8 theorem. -/
theorem claim_c8_null_refresh_excluded_witness :
    ∃ v, rLiveUpdated.state = some v ∧ v.isNull = false :=
  claim_c8_null_refresh_excluded 10 [rLive] rLiveUpdated (by
    have h : updateResources 10 [rLive] = [rLiveUpdated] := rfl
    rw [h]
    exact List.Mem.head _)

/-- C10: enumeration of the state is all-or-nothing — if, for any single
resource instance of the walk, extracting the id fails, or (for a managed
instance whose provider is initialized) decoding the stored attributes
against the provider schema fails, then `State.Resources` returns an
error and produces no catalog at all. -/
theorem claim_c10_resources_all_or_nothing
    (providers : List (String × TerraformProvider)) (entries : List StateEntry)
    (e : StateEntry) (hmem : e ∈ entries)
    (hfail : (∃ m, getResourceID e.inst = .error m)
      ∨ (e.mode = Mode.managed ∧ ∃ p, providers.lookup e.providerName = some p
          ∧ ∃ m, getResourceState e.inst e.ty p = .error m)) :
    ∃ msg, stateResources providers entries = .error msg := by
  induction entries with
  | nil => cases hmem
  | cons a rest ih =>
    rcases List.mem_cons.mp hmem with heq | htail
    · subst heq
      cases hid : getResourceID e.inst with
      | error m =>
        exact ⟨"failed to get id for resource: " ++ m,
          by simp [stateResources, hid]⟩
      | ok resID =>
        rcases hfail with ⟨m, hm⟩ | ⟨hmode, p, hp, m, hm⟩
        · rw [hid] at hm
          cases hm
        · exact ⟨"failed to decode resource into object: " ++ m,
            by simp [stateResources, hid, hmode, hp, hm]⟩
    · obtain ⟨msg, hmsg⟩ := ih htail
      cases hid : getResourceID a.inst with
      | error m =>
        exact ⟨"failed to get id for resource: " ++ m,
          by simp [stateResources, hid]⟩
      | ok resID =>
        by_cases hmode : a.mode = Mode.managed
        · cases hp : providers.lookup a.providerName with
          | none =>
            exact ⟨msg, by simp [stateResources, hid, hmode, hp, hmsg]⟩
          | some p =>
            cases hdec : getResourceState a.inst a.ty p with
            | error m =>
              exact ⟨"failed to decode resource into object: " ++ m,
                by simp [stateResources, hid, hmode, hp, hdec]⟩
            | ok v =>
              exact ⟨msg, by simp [stateResources, hid, hmode, hp, hdec, hmsg]⟩
        · exact ⟨msg, by simp [stateResources, hid, hmode, hmsg]⟩

/-- A resource instance with no current object, on which id extraction
fails. -/
def instShell : ResInstance := { current := none }

/-- A state entry holding `instShell`. -/
def entryBad : StateEntry :=
  { mode := Mode.managed, ty := "aws_vpc", providerName := "aws", inst := instShell }

/-- Concrete instance of the C10 theorem: one broken instance aborts the
whole enumeration. -/
theorem claim_c10_resources_all_or_nothing_witness :
    ∃ msg, stateResources [] [entryBad] = .error msg :=
  claim_c10_resources_all_or_nothing [] [entryBad] entryBad (List.Mem.head _)
    (Or.inl ⟨"resource instance has no current object", rfl⟩)

/-! ## Association-map lemmas for the id-only synthetic state -/

/-- Looking up the inserted key finds the inserted value. -/
theorem lookup_insertField_self (m : List (String × CtyValue)) (k : String) (v : CtyValue) :
    (insertField m k v).lookup k = some v := by
  induction m with
  | nil => simp [insertField, List.lookup]
  | cons kv rest ih =>
    unfold insertField
    by_cases h : kv.1 = k
    · simp [h, List.lookup]
    · have hb : (kv.1 == k) = false := beq_eq_false_iff_ne.mpr h
      have hb' : (k == kv.1) = false := beq_eq_false_iff_ne.mpr (Ne.symm h)
      simp [hb, List.lookup, hb', ih]

/-- Looking up a different key is unaffected by an insertion. -/
theorem lookup_insertField_ne (m : List (String × CtyValue)) (k k' : String) (v : CtyValue)
    (h : k' ≠ k) : (insertField m k v).lookup k' = m.lookup k' := by
  induction m with
  | nil => simp [insertField, List.lookup, beq_eq_false_iff_ne.mpr h]
  | cons kv rest ih =>
    unfold insertField
    by_cases hkk : kv.1 = k
    · have hb' : (k' == k) = false := beq_eq_false_iff_ne.mpr h
      have hb'' : (k' == kv.1) = false := by
        rw [hkk]
        exact hb'
      simp [hkk, List.lookup, hb', hb'']
    · have hb : (kv.1 == k) = false := beq_eq_false_iff_ne.mpr hkk
      by_cases hk' : k' = kv.1
      · simp [hb, List.lookup, hk']
      · have hbk' : (k' == kv.1) = false := beq_eq_false_iff_ne.mpr hk'
        simp [hb, List.lookup, hbk', ih]

/-- A fold of insertions whose keys all differ from `n` leaves the lookup
of `n` unchanged. -/
theorem lookup_foldl_insertField_of_notin {A : Type} (g : A → CtyValue)
    (ps : List (String × A)) (n : String) :
    ∀ init : List (String × CtyValue), (∀ q ∈ ps, n ≠ q.1) →
      (ps.foldl (fun m kv => insertField m kv.1 (g kv.2)) init).lookup n
        = init.lookup n := by
  induction ps with
  | nil => intro init _; rfl
  | cons q rest ih =>
    intro init hn
    rw [List.foldl_cons]
    rw [ih _ (fun q' hq' => hn q' (List.mem_cons_of_mem _ hq'))]
    exact lookup_insertField_ne init q.1 n (g q.2) (hn q (List.mem_cons_self _ _))

/-- With key-distinct entries, a fold of insertions makes the lookup of a
present key find its (transformed) value. -/
theorem lookup_foldl_insertField_of_mem {A : Type} (g : A → CtyValue)
    (ps : List (String × A)) (n : String) (t : A) :
    ∀ init : List (String × CtyValue), (n, t) ∈ ps → (ps.map Prod.fst).Nodup →
      (ps.foldl (fun m kv => insertField m kv.1 (g kv.2)) init).lookup n
        = some (g t) := by
  induction ps with
  | nil => intro init hmem _; cases hmem
  | cons q rest ih =>
    intro init hmem hnodup
    rw [List.foldl_cons]
    rcases List.mem_cons.mp hmem with heq | htail
    · have hq1 : q.1 = n := by rw [← heq]
      have hkeys : ∀ q' ∈ rest, n ≠ q'.1 := by
        intro q' hq' hEq
        have hnd := List.nodup_cons.mp hnodup
        apply hnd.1
        rw [hq1, hEq]
        exact List.mem_map_of_mem Prod.fst hq'
      rw [lookup_foldl_insertField_of_notin g rest n _ hkeys]
      rw [← heq]
      exact lookup_insertField_self init n (g t)
    · exact ih _ htail (List.nodup_cons.mp hnodup).2

/-- The selection the `importAndReadResource` loop makes: the first
imported descriptor whose type name matches. -/
def firstTypeMatch (ty : String) : List ImportedResource → Option ImportedResource
  | [] => none
  | ri :: rest => if ri.typeName == ty then some ri else firstTypeMatch ty rest

/-- `importAndReadResource`'s loop returns the refreshed state of the
first type-matched imported descriptor, when all reads succeed. -/
theorem readImported_first_match (r : Resource) :
    ∀ (l : List ImportedResource) (readVal : ImportedResource → CtyValue),
      (∀ ri ∈ l, r.provider.readResource ri.typeName ri.state = .ok (readVal ri)) →
      ∀ ri₀, firstTypeMatch r.terraformType l = some ri₀ →
      r.readImported l = .ok (readVal ri₀) := by
  intro l
  induction l with
  | nil =>
    intro readVal _ ri₀ hfind
    cases hfind
  | cons ri rest ih =>
    intro readVal hreads ri₀ hfind
    unfold Resource.readImported
    rw [hreads ri (List.mem_cons_self _ _)]
    dsimp only
    by_cases hty : (ri.typeName == r.terraformType) = true
    · rw [if_pos hty]
      unfold firstTypeMatch at hfind
      rw [if_pos hty] at hfind
      cases hfind
      rfl
    · rw [if_neg hty]
      unfold firstTypeMatch at hfind
      rw [if_neg hty] at hfind
      exact ih readVal (fun ri' hri' => hreads ri' (List.mem_cons_of_mem _ hri')) ri₀ hfind

/-- C5: `UpdateState` uses the three refresh strategies in order: with a
stored state tree it calls Read directly on it; otherwise it imports and
reads the first type-matched imported descriptor; and when
import-and-read fails it reads from the id-only synthetic state
`emptyValueWitID`, in which `id` holds the resource's id and every other
schema attribute holds the schema's empty value. -/
theorem claim_c5_refresh_strategy_order (r : Resource) :
    (∀ s v, r.state = some s →
      r.provider.readResource r.terraformType s = .ok v →
      r.updateState = .ok { r with state := some v })
    ∧ (∀ l (readVal : ImportedResource → CtyValue) ri₀,
        r.state = none →
        r.provider.importResource r.terraformType r.id = .ok l →
        (∀ ri ∈ l, r.provider.readResource ri.typeName ri.state = .ok (readVal ri)) →
        firstTypeMatch r.terraformType l = some ri₀ →
        r.updateState = .ok { r with state := some (readVal ri₀) })
    ∧ (∀ e schema v,
        r.state = none →
        r.importAndReadResource = .error e →
        r.provider.getSchemaForResource r.terraformType = .ok schema →
        r.provider.readResource r.terraformType (emptyValueWitID r.id schema.block)
          = .ok v →
        r.updateState = .ok { r with state := some v })
    ∧ (∀ id block,
        (emptyValueWitID id block).lookupField "id" = some (.stringVal id)
        ∧ (∀ n ty, (n, ty) ∈ block.attributes → n ≠ "id" →
            (∀ q ∈ block.blockTypes, n ≠ q.1) →
            (block.attributes.map Prod.fst).Nodup →
            (emptyValueWitID id block).lookupField n = some (attrEmptyValue ty))) := by
  refine ⟨?_, ?_, ?_, ?_⟩
  · intro s v hs hv
    simp [Resource.updateState, hs, hv]
  · intro l readVal ri₀ hs himp hreads hfind
    have himp2 : r.importAndReadResource = .ok (readVal ri₀) := by
      unfold Resource.importAndReadResource
      rw [himp]
      dsimp only
      exact readImported_first_match r l readVal hreads ri₀ hfind
    simp [Resource.updateState, hs, himp2]
  · intro e schema v hs herr hschema hread
    simp [Resource.updateState, hs, herr, Resource.readResource, hschema, hread]
  · intro id block
    constructor
    · unfold emptyValueWitID CtyValue.lookupField
      exact lookup_insertField_self _ "id" (.stringVal id)
    · intro n ty hmem hnid hnblocks hnodup
      show (insertField
          (block.blockTypes.foldl (fun m kv => insertField m kv.1 kv.2)
            (block.attributes.foldl
              (fun m kv => insertField m kv.1 (attrEmptyValue kv.2)) []))
          "id" (CtyValue.stringVal id)).lookup n = some (attrEmptyValue ty)
      rw [lookup_insertField_ne _ "id" n _ hnid]
      have h2 := lookup_foldl_insertField_of_notin (fun v => v) block.blockTypes n
        (block.attributes.foldl (fun m kv => insertField m kv.1 (attrEmptyValue kv.2)) [])
        hnblocks
      dsimp only at h2
      rw [h2]
      exact lookup_foldl_insertField_of_mem attrEmptyValue block.attributes n ty []
        hmem hnodup

/-- A one-attribute schema for the C5 witness. -/
def schemaC5 : Schema :=
  { block := { attributes := [("arn", CtyType.string)], blockTypes := [] } }

/-- A provider whose import fails retryably and whose read echoes the
given prior state. -/
def pC5 : TerraformProvider :=
  { readResource := fun _ s => .ok s
    importResource := fun _ _ => .error "RequestError: send request failed"
    getSchemaForResource := fun _ => .ok schemaC5
    destroyResource := fun _ _ => none }

/-- A stateless resource bound to `pC5`, refreshed via the synthetic
id-only strategy. -/
def rC5 : Resource :=
  { terraformType := "aws_instance", id := "i-1", provider := pC5, state := none }

/-- Concrete instance of the C5 theorem: strategy 3 fires for `rC5`, and
the synthetic state carries the id. -/
theorem claim_c5_refresh_strategy_order_witness :
    rC5.updateState = .ok { rC5 with state := some (emptyValueWitID "i-1" schemaC5.block) }
    ∧ (emptyValueWitID "i-1" schemaC5.block).lookupField "id"
        = some (.stringVal "i-1") := by
  have h := claim_c5_refresh_strategy_order rC5
  exact ⟨h.2.2.1 "RequestError: send request failed" schemaC5
      (emptyValueWitID "i-1" schemaC5.block) rfl rfl rfl rfl,
    (h.2.2.2 "i-1" schemaC5.block).1⟩
